import Mathlib

/-!
Verification development for the Apex-Predator trading core.

Shallow embedding conventions: Python floats are modelled as rationals
(`ℚ`), timestamps as rational seconds since an arbitrary epoch
(`datetime.isoformat` / `datetime.fromisoformat` round-trip exactly, so a
timestamp is represented by its numeric value), Python dicts as
association lists, and fallible operations as `Except` / `Option`.
-/

namespace Apex

/-! ### Association-list helpers (Python `dict` semantics) -/

/-- Value lookup, `d.get(k)`. -/
def lookupKey {α : Type} (m : List (String × α)) (k : String) : Option α :=
  match m with
  | [] => none
  | (k', v) :: t => if k' = k then some v else lookupKey t k

/-- Assignment `d[k] = v`: overwrites an existing key, else appends. -/
def setKey {α : Type} (m : List (String × α)) (k : String) (v : α) :
    List (String × α) :=
  match m with
  | [] => [(k, v)]
  | (k', v') :: t => if k' = k then (k', v) :: t else (k', v') :: setKey t k v

/-- Deletion `del d[k]` / `d.pop(k, None)`. -/
def eraseKey {α : Type} (m : List (String × α)) (k : String) :
    List (String × α) :=
  match m with
  | [] => []
  | (k', v') :: t => if k' = k then t else (k', v') :: eraseKey t k

/-! ### `src/core/gabagool.py` — data model -/

/-- Position leg, the YES or NO outcome token. -/
inductive Leg where
  | yes
  | no
deriving DecidableEq, Repr

/-- Embeds the `GabagoolConfig` dataclass (numeric strategy parameters). -/
structure GabagoolConfig where
  max_pair_cost : ℚ := 985 / 1000
  min_profit_margin : ℚ := 15 / 1000
  min_improvement : ℚ := 0
  order_size_usd : ℚ := 25
  max_position_usd : ℚ := 500
  balance_ratio_threshold : ℚ := 3 / 2
  kill_switch_minutes : ℚ := 20
  rsi_period : Nat := 14
  rsi_overbought : ℚ := 70
  rsi_oversold : ℚ := 30
  trend_filter_enabled : Bool := true
deriving DecidableEq, Repr

/-- Embeds the `GabagoolPosition` dataclass. -/
structure GabagoolPosition where
  market_id : String
  question : String
  token_yes_id : String
  token_no_id : String
  qty_yes : ℚ := 0
  cost_yes : ℚ := 0
  qty_no : ℚ := 0
  cost_no : ℚ := 0
  pending_qty_yes : ℚ := 0
  pending_cost_yes : ℚ := 0
  pending_qty_no : ℚ := 0
  pending_cost_no : ℚ := 0
  is_locked : Bool := false
  created_at : ℚ := 0
  updated_at : ℚ := 0
deriving DecidableEq, Repr

namespace GabagoolPosition

/-- Property `avg_price_yes`: `cost_yes / qty_yes` when `qty_yes > 0`, else `0`. -/
def avg_price_yes (p : GabagoolPosition) : ℚ :=
  if p.qty_yes > 0 then p.cost_yes / p.qty_yes else 0

/-- Property `avg_price_no`. -/
def avg_price_no (p : GabagoolPosition) : ℚ :=
  if p.qty_no > 0 then p.cost_no / p.qty_no else 0

/-- Property `pair_cost`: combined cost of the pair, `2.0` sentinel when a leg is missing. -/
def pair_cost (p : GabagoolPosition) : ℚ :=
  if p.qty_yes > 0 ∧ p.qty_no > 0 then p.avg_price_yes + p.avg_price_no else 2

/-- Property `total_cost`. -/
def total_cost (p : GabagoolPosition) : ℚ :=
  p.cost_yes + p.cost_no

/-- Property `hedged_qty`: `min(qty_yes, qty_no)`. -/
def hedged_qty (p : GabagoolPosition) : ℚ :=
  min p.qty_yes p.qty_no

/-- Property `locked_profit`. -/
def locked_profit (p : GabagoolPosition) : ℚ :=
  if p.is_locked then p.hedged_qty - p.total_cost else 0

/-- Method `check_and_lock` (gabagool.py lines 106-109): sets `is_locked`
when `pair_cost < max_pair_cost` and `hedged_qty > total_cost`; never clears it. -/
def check_and_lock (maxPairCost : ℚ) (p : GabagoolPosition) : GabagoolPosition :=
  if p.pair_cost < maxPairCost ∧ p.hedged_qty > p.total_cost then
    { p with is_locked := true }
  else p

end GabagoolPosition

/-- Arithmetic part of `GabagoolEngine._on_fill_callback` (lines 273-285):
move the filled amount from pending to real, clamping pending at 0, and
stamp `updated_at`. The lock check follows in `fillUpdate`. -/
def fillArith (side : Leg) (filled_qty price now : ℚ) (p : GabagoolPosition) :
    GabagoolPosition :=
  let cost := filled_qty * price
  let p1 :=
    match side with
    | .yes =>
        { p with qty_yes := p.qty_yes + filled_qty,
                 cost_yes := p.cost_yes + cost,
                 pending_qty_yes := max 0 (p.pending_qty_yes - filled_qty) }
    | .no =>
        { p with qty_no := p.qty_no + filled_qty,
                 cost_no := p.cost_no + cost,
                 pending_qty_no := max 0 (p.pending_qty_no - filled_qty) }
  { p1 with updated_at := now }

/-- Embeds `GabagoolEngine._on_fill_callback` on the looked-up position
(lines 263-287): the arithmetic update followed by `check_and_lock`. -/
def fillUpdate (maxPairCost : ℚ) (side : Leg) (filled_qty price now : ℚ)
    (p : GabagoolPosition) : GabagoolPosition :=
  GabagoolPosition.check_and_lock maxPairCost (fillArith side filled_qty price now p)

/-- Embeds `GabagoolEngine._on_order_end_callback` on the looked-up position
(lines 289-304): decrement pending quantity by the unfilled remainder,
clamped at 0. No other field is touched. -/
def orderEndUpdate (side : Leg) (remaining_qty : ℚ) (p : GabagoolPosition) :
    GabagoolPosition :=
  match side with
  | .yes => { p with pending_qty_yes := max 0 (p.pending_qty_yes - remaining_qty) }
  | .no => { p with pending_qty_no := max 0 (p.pending_qty_no - remaining_qty) }

/-- Pending-side mutation of `GabagoolEngine.place_order` (lines 505-516),
reached once the price and quantity guards have passed: increment pending
quantity and pending cost of the ordered leg and stamp `updated_at`. -/
def placeOrderPending (side : Leg) (price qty now : ℚ) (p : GabagoolPosition) :
    GabagoolPosition :=
  let cost := qty * price
  let p1 :=
    match side with
    | .yes =>
        { p with pending_qty_yes := p.pending_qty_yes + qty,
                 pending_cost_yes := p.pending_cost_yes + cost }
    | .no =>
        { p with pending_qty_no := p.pending_qty_no + qty,
                 pending_cost_no := p.pending_cost_no + cost }
  { p1 with updated_at := now }

/-- An order the engine hands to `executor.queue_order`. -/
structure EngineOrder where
  token_id : String
  side : String
  price : ℚ
  size : ℚ
  order_type : String
deriving DecidableEq, Repr

/-- Embeds `GabagoolEngine.place_order` (lines 487-541) on the positions
table: return `false` when the market has no position or the price is
invalid, default the quantity from the config when `qty ≤ 0`, apply the
pending update, and emit the queued BUY order.
Returns (return value, new table, submitted orders). -/
def placeOrder (cfg : GabagoolConfig)
    (positions : List (String × GabagoolPosition)) (market_id : String)
    (side : Leg) (price qty now : ℚ) :
    Bool × List (String × GabagoolPosition) × List EngineOrder :=
  match lookupKey positions market_id with
  | none => (false, positions, [])
  | some pos =>
    if price ≤ 0 then (false, positions, [])
    else
      let qty1 := if qty ≤ 0 then cfg.order_size_usd / price else qty
      let pos1 := placeOrderPending side price qty1 now pos
      let token := match side with
        | .yes => pos.token_yes_id
        | .no => pos.token_no_id
      (true, setKey positions market_id pos1,
        [{ token_id := token, side := "BUY", price := price, size := qty1,
           order_type := "GTC" }])

/-- Embeds `GabagoolEngine._liquidate_position` (lines 479-485), reached
with an executor configured: it prints, deletes the position from the
table and saves. The market sell itself is only a comment in the source
(`# En prod: self.executor.client.sell(...)`), so the list of orders this
step submits is empty. -/
def liquidatePosition (positions : List (String × GabagoolPosition))
    (pos : GabagoolPosition) :
    List (String × GabagoolPosition) × List EngineOrder :=
  (eraseKey positions pos.market_id, [])

/-- Kill-switch stage of `GabagoolEngine.analyze_opportunity`
(lines 329-338): when a position exists, is not locked and its age in
minutes exceeds `kill_switch_minutes`, the position is liquidated and the
snapshot returns the no-op decision `(None, 0.0)`. Returns `none` when the
branch is not taken, else `some` of (new table, submitted orders,
decision, size). -/
def analyzeKillSwitch (cfg : GabagoolConfig)
    (positions : List (String × GabagoolPosition)) (market_id : String)
    (now : ℚ) :
    Option (List (String × GabagoolPosition) × List EngineOrder ×
      Option Leg × ℚ) :=
  match lookupKey positions market_id with
  | none => none
  | some pos =>
    if pos.is_locked = false ∧
        (now - pos.created_at) / 60 > cfg.kill_switch_minutes then
      let lp := liquidatePosition positions pos
      some (lp.1, lp.2, none, 0)
    else none

/-- Fill-manager updates delivered to the engine: a fill or a terminal
order-end event for one leg. -/
inductive FillEvent where
  | fill (side : Leg) (qty price now : ℚ)
  | orderEnd (side : Leg) (remaining : ℚ)
deriving DecidableEq, Repr

/-- One fill-manager update applied to a position, dispatching to the two
engine callbacks. -/
def fillStep (maxPairCost : ℚ) (e : FillEvent) (p : GabagoolPosition) :
    GabagoolPosition :=
  match e with
  | .fill side qty price now => fillUpdate maxPairCost side qty price now p
  | .orderEnd side rem => orderEndUpdate side rem p

/-- A sequence of fill-manager updates applied in order. -/
def applyFillEvents (maxPairCost : ℚ) (es : List FillEvent)
    (p : GabagoolPosition) : GabagoolPosition :=
  es.foldl (fun q e => fillStep maxPairCost e q) p

/-! ### `src/core/gabagool.py` — persistence (`to_dict` / `from_dict`) -/

/-- JSON scalar values appearing in a serialized position. Timestamps are
stored numerically (`isoformat` / `fromisoformat` round-trip exactly). -/
inductive JVal where
  | s (v : String)
  | q (v : ℚ)
  | b (v : Bool)
deriving DecidableEq, Repr

/-- Field names of the `GabagoolPosition` dataclass: exactly the keyword
arguments its generated constructor accepts. -/
def positionFields : List String :=
  ["market_id", "question", "token_yes_id", "token_no_id",
   "qty_yes", "cost_yes", "qty_no", "cost_no",
   "pending_qty_yes", "pending_cost_yes", "pending_qty_no", "pending_cost_no",
   "is_locked", "created_at", "updated_at"]

/-- Embeds `GabagoolPosition.to_dict` (lines 111-118): `asdict(self)` with
the timestamps rendered, plus the two derived visible totals
`total_qty_yes` and `total_qty_no`. -/
def toDict (p : GabagoolPosition) : List (String × JVal) :=
  [("market_id", .s p.market_id), ("question", .s p.question),
   ("token_yes_id", .s p.token_yes_id), ("token_no_id", .s p.token_no_id),
   ("qty_yes", .q p.qty_yes), ("cost_yes", .q p.cost_yes),
   ("qty_no", .q p.qty_no), ("cost_no", .q p.cost_no),
   ("pending_qty_yes", .q p.pending_qty_yes),
   ("pending_cost_yes", .q p.pending_cost_yes),
   ("pending_qty_no", .q p.pending_qty_no),
   ("pending_cost_no", .q p.pending_cost_no),
   ("is_locked", .b p.is_locked),
   ("created_at", .q p.created_at), ("updated_at", .q p.updated_at),
   ("total_qty_yes", .q (p.qty_yes + p.pending_qty_yes)),
   ("total_qty_no", .q (p.qty_no + p.pending_qty_no))]

/-- String lookup in a parsed dict. -/
def getS (d : List (String × JVal)) (k : String) : Option String :=
  match lookupKey d k with
  | some (.s v) => some v
  | _ => none

/-- Numeric lookup with a dataclass default. -/
def getQ (d : List (String × JVal)) (k : String) (dflt : ℚ) : ℚ :=
  match lookupKey d k with
  | some (.q v) => v
  | _ => dflt

/-- Boolean lookup with a dataclass default. -/
def getB (d : List (String × JVal)) (k : String) (dflt : Bool) : Bool :=
  match lookupKey d k with
  | some (.b v) => v
  | _ => dflt

/-- Embeds `GabagoolPosition.from_dict` (lines 120-124): parse the
timestamps, then `cls(**data)`. The generated constructor raises
`TypeError` on any keyword that is not a dataclass field, and on a missing
required (default-less) field; both are modelled as `Except.error`. -/
def fromDict (d : List (String × JVal)) : Except String GabagoolPosition :=
  if d.all (fun kv => positionFields.contains kv.1) then
    match getS d "market_id", getS d "question",
        getS d "token_yes_id", getS d "token_no_id" with
    | some mid, some qu, some ty, some tn =>
        .ok { market_id := mid, question := qu,
              token_yes_id := ty, token_no_id := tn,
              qty_yes := getQ d "qty_yes" 0, cost_yes := getQ d "cost_yes" 0,
              qty_no := getQ d "qty_no" 0, cost_no := getQ d "cost_no" 0,
              pending_qty_yes := getQ d "pending_qty_yes" 0,
              pending_cost_yes := getQ d "pending_cost_yes" 0,
              pending_qty_no := getQ d "pending_qty_no" 0,
              pending_cost_no := getQ d "pending_cost_no" 0,
              is_locked := getB d "is_locked" false,
              created_at := getQ d "created_at" 0,
              updated_at := getQ d "updated_at" 0 }
    | _, _, _, _ => .error "missing required argument"
  else .error "unexpected keyword argument"

/-- Embeds `GabagoolEngine._save_positions` (lines 609-617): the JSON file
content, one serialized dict per market. -/
def savePositions (positions : List (String × GabagoolPosition)) :
    List (String × List (String × JVal)) :=
  positions.map (fun kv => (kv.1, toDict kv.2))

/-- Embeds `GabagoolEngine._load_positions` (lines 619-633): rebuild every
position with `from_dict`; a `TypeError` (or decode error) anywhere is
caught and leaves the in-memory table empty. -/
def loadPositions (data : List (String × List (String × JVal))) :
    List (String × GabagoolPosition) :=
  match data.mapM (fun kv => (fromDict kv.2).map (fun p => (kv.1, p))) with
  | .ok l => l
  | .error _ => []

/-! ### `src/core/order_queue.py` -/

/-- Enum `QueueOrderStatus`. -/
inductive QueueOrderStatus where
  | pending
  | processing
  | completed
  | failed
  | cancelled
deriving DecidableEq, Repr

/-- Enum `OrderPriority`. -/
inductive OrderPriority where
  | normal
  | high
  | urgent
deriving DecidableEq, Repr

/-- Embeds the `QueuedOrder` dataclass. `result` holds the exchange
response when completed; `metadata` is a string map. -/
structure QueuedOrder where
  token_id : String
  side : String
  price : ℚ
  size : ℚ
  id : String
  order_type : String := "GTC"
  priority : OrderPriority := .normal
  created_at : ℚ := 0
  status : QueueOrderStatus := .pending
  result : Option String := none
  error : Option String := none
  retries : Nat := 0
  market_id : Option String := none
  metadata : List (String × String) := []
deriving DecidableEq, Repr

/-- Dedup key of `OrderQueue._make_order_key` (line 211-213): the f-string
`"{token_id}:{side}:{price}:{size}"`, modelled as the component tuple
(equality of the tuples coincides with equality of the rendered strings). -/
def makeOrderKey (o : QueuedOrder) : String × String × ℚ × ℚ :=
  (o.token_id, o.side, o.price, o.size)

/-- Counters of the `QueueStats` dataclass that the queue operations touch. -/
structure QueueStats where
  total_enqueued : Nat := 0
  total_completed : Nat := 0
  total_failed : Nat := 0
  total_retried : Nat := 0
deriving DecidableEq, Repr

/-- Callback events fired by the queue (`on_order_retry`,
`on_order_failed`, `on_order_complete`). -/
inductive QueueEvent where
  | retried (id : String) (n : Nat)
  | failedOrder (id : String)
  | completedOrder (id : String)
deriving DecidableEq, Repr

/-- State of an `OrderQueue`: three priority FIFOs of order ids, the
`order_id → QueuedOrder` table, the 200-entry ring of recent dedup keys,
the retry parameters, and the stats counters. -/
structure OrderQueueState where
  max_retries : Nat := 2
  retry_delay : ℚ := 1 / 20
  urgent_queue : List String := []
  high_queue : List String := []
  normal_queue : List String := []
  orders : List (String × QueuedOrder) := []
  recent_order_keys : List (String × String × ℚ × ℚ) := []
  stats : QueueStats := {}
deriving DecidableEq, Repr

/-- Append to the `deque(maxlen=200)` of recent keys: the oldest entries
are dropped once the ring is full. -/
def pushRecent (ks : List (String × String × ℚ × ℚ))
    (k : String × String × ℚ × ℚ) : List (String × String × ℚ × ℚ) :=
  let ks1 := ks ++ [k]
  if 200 < ks1.length then ks1.drop (ks1.length - 200) else ks1

/-- Embeds `OrderQueue.enqueue` (lines 215-248): when the dedup key is in
the recent ring, return `order.id` without touching the state; otherwise
record the key, insert the order in the table, bump `total_enqueued` and
push the id on the FIFO of its priority. -/
def enqueue (s : OrderQueueState) (o : QueuedOrder) :
    String × OrderQueueState :=
  let key := makeOrderKey o
  if s.recent_order_keys.contains key then (o.id, s)
  else
    let s1 := { s with
      recent_order_keys := pushRecent s.recent_order_keys key,
      orders := setKey s.orders o.id o,
      stats := { s.stats with total_enqueued := s.stats.total_enqueued + 1 } }
    let s2 :=
      match o.priority with
      | .urgent => { s1 with urgent_queue := s1.urgent_queue ++ [o.id] }
      | .high => { s1 with high_queue := s1.high_queue ++ [o.id] }
      | .normal => { s1 with normal_queue := s1.normal_queue ++ [o.id] }
    (o.id, s2)

/-- Embeds `OrderQueue._get_next_order` (lines 342-350): pop the first id
from the highest-priority non-empty FIFO. -/
def getNextOrder (s : OrderQueueState) : Option String × OrderQueueState :=
  match s.urgent_queue with
  | oid :: t => (some oid, { s with urgent_queue := t })
  | [] =>
    match s.high_queue with
    | oid :: t => (some oid, { s with high_queue := t })
    | [] =>
      match s.normal_queue with
      | oid :: t => (some oid, { s with normal_queue := t })
      | [] => (none, s)

/-- Status write `order.status = ...` on the table entry (the Python code
mutates the shared `QueuedOrder` object in place). -/
def setOrderStatus (s : OrderQueueState) (order_id : String)
    (st : QueueOrderStatus) : OrderQueueState :=
  match lookupKey s.orders order_id with
  | none => s
  | some o => { s with orders := setKey s.orders order_id { o with status := st } }

/-- Embeds `OrderQueue._handle_failure` (lines 419-453) on the order with
the given id: store the error; if `retries < max_retries` increment
retries, reset status to pending, count the retry, fire the retry
callback, sleep `retry_delay * retries` and call `enqueue` again;
otherwise mark failed and fire the failed callback.
Returns (new state, slept seconds, fired events). -/
def handleFailure (s : OrderQueueState) (order_id : String) (err : String) :
    OrderQueueState × ℚ × List QueueEvent :=
  match lookupKey s.orders order_id with
  | none => (s, 0, [])
  | some o =>
    let o1 := { o with error := some err }
    if o1.retries < s.max_retries then
      let o2 := { o1 with retries := o1.retries + 1, status := .pending }
      let s1 := { s with
        orders := setKey s.orders order_id o2,
        stats := { s.stats with total_retried := s.stats.total_retried + 1 } }
      let sleep := s.retry_delay * o2.retries
      let s2 := (enqueue s1 o2).2
      (s2, sleep, [.retried order_id o2.retries])
    else
      let o2 := { o1 with status := .failed }
      ({ s with
          orders := setKey s.orders order_id o2,
          stats := { s.stats with total_failed := s.stats.total_failed + 1 } },
        0, [.failedOrder order_id])

/-! ### `src/core/executor.py` — bilateral execution -/

/-- Embeds the `TradeResult` dataclass (fields the bilateral path sets). -/
structure TradeResult where
  opportunity_id : String
  success : Bool
  order_yes_id : Option String := none
  order_no_id : Option String := none
  error_message : Option String := none
deriving DecidableEq, Repr

/-- Embeds the property `TradeResult.is_partial` (executor.py lines 47-50):
true when exactly one of the two order ids is set. (The Lean name avoids
a reserved word.) -/
def TradeResult.partialFill (r : TradeResult) : Bool :=
  r.order_yes_id.isSome != r.order_no_id.isSome

/-- Outcome of one leg submission `self._client.place_order(...)` inside
`asyncio.gather(..., return_exceptions=True)`: either an exception
(carrying its message) or a response map whose `"id"` field may be
missing. -/
abbrev LegOutcome := Except String (Option String)

/-- Embeds `OrderExecutor._place_bilateral_orders` (lines 475-586). Both
legs have already completed (gather); the YES result is examined first and
an exception there is re-raised before `order_no_id` is ever assigned.
The except branch cancels the YES order when only `order_yes_id` is set
(logging critically if that cancel raises); the symmetric branch tests
`order_no_id`, which at that point is always `None`.
Returns (trade result, cancel_order calls issued, critical log lines). -/
def placeBilateralOrders (oppId : String) (yes no : LegOutcome)
    (cancel_ok : Bool) : TradeResult × List String × List String :=
  match yes with
  | .error e =>
      ({ opportunity_id := oppId, success := false, error_message := some e },
        [], [])
  | .ok yid =>
    match no with
    | .ok nid =>
        ({ opportunity_id := oppId, success := true,
           order_yes_id := yid, order_no_id := nid }, [], [])
    | .error e =>
      match yid with
      | some y =>
          ({ opportunity_id := oppId, success := false,
             order_yes_id := some y, error_message := some e },
            [y],
            if cancel_ok then []
            else ["CRITIQUE: annulation de l ordre YES echouee, position non couverte"])
      | none =>
          ({ opportunity_id := oppId, success := false,
             error_message := some e }, [], [])

/-! ### `src/core/resilience.py` — circuit breaker -/

/-- Enum `CircuitState` (`opened` embeds the source's `OPEN`, a reserved
word in Lean). -/
inductive CircuitState where
  | closed
  | opened
  | half_open
deriving DecidableEq, Repr

/-- Embeds the `CircuitBreakerConfig` dataclass. -/
structure CircuitBreakerConfig where
  failure_threshold : Nat := 5
  success_threshold : Nat := 2
  timeout_seconds : ℚ := 30
  half_open_max_calls : Nat := 3
deriving DecidableEq, Repr

/-- Mutable state of a `CircuitBreaker`. -/
structure BreakerState where
  state : CircuitState := .closed
  failure_count : Nat := 0
  success_count : Nat := 0
  last_failure_time : Option ℚ := none
  half_open_calls : Nat := 0
deriving DecidableEq, Repr

/-- Embeds `CircuitBreaker._check_state` (lines 132-155): returns whether
the call is admitted, updating the state (open transitions to half_open
once `timeout_seconds` have elapsed since the last failure). -/
def checkState (cfg : CircuitBreakerConfig) (now : ℚ) (s : BreakerState) :
    Bool × BreakerState :=
  match s.state with
  | .closed => (true, s)
  | .opened =>
    match s.last_failure_time with
    | some t =>
        if now - t ≥ cfg.timeout_seconds then
          (true, { s with state := .half_open, half_open_calls := 0 })
        else (false, s)
    | none => (false, s)
  | .half_open =>
      if s.half_open_calls < cfg.half_open_max_calls then
        (true, { s with half_open_calls := s.half_open_calls + 1 })
      else (false, s)

/-- Embeds `CircuitBreaker._record_success` (lines 157-168). -/
def recordSuccess (cfg : CircuitBreakerConfig) (s : BreakerState) :
    BreakerState :=
  match s.state with
  | .half_open =>
      let s1 := { s with success_count := s.success_count + 1 }
      if s1.success_count ≥ cfg.success_threshold then
        { s1 with state := .closed, failure_count := 0, success_count := 0 }
      else s1
  | .closed => { s with failure_count := 0 }
  | .opened => s

/-- Embeds `CircuitBreaker._record_failure` (lines 170-186). -/
def recordFailure (cfg : CircuitBreakerConfig) (now : ℚ) (s : BreakerState) :
    BreakerState :=
  let s1 := { s with failure_count := s.failure_count + 1,
                     last_failure_time := some now }
  match s1.state with
  | .half_open => { s1 with state := .opened, success_count := 0 }
  | .closed =>
      if s1.failure_count ≥ cfg.failure_threshold then
        { s1 with state := .opened }
      else s1
  | .opened => s1

/-- Result the decorated wrapper produces for one guarded call:
`rejected` is the `CircuitOpenError` path — the underlying remote function
is invoked exactly in the `executed` cases. -/
inductive CallResult where
  | rejected
  | executed (success : Bool)
deriving DecidableEq, Repr

/-- Embeds the decorator body `CircuitBreaker.__call__` (lines 188-205):
obtain admission via `_check_state`, raise `CircuitOpenError` when not
admitted, else run the remote function (whose outcome `success` is a
parameter of the model) and record it. -/
def guardedCall (cfg : CircuitBreakerConfig) (now : ℚ) (success : Bool)
    (s : BreakerState) : CallResult × BreakerState :=
  let c := checkState cfg now s
  if c.1 then
    if success then (.executed true, recordSuccess cfg c.2)
    else (.executed false, recordFailure cfg now c.2)
  else (.rejected, c.2)

/-- Breaker states reachable from a fresh breaker through guarded calls. -/
inductive BreakerReach (cfg : CircuitBreakerConfig) : BreakerState → Prop where
  | start : BreakerReach cfg {}
  | step (s : BreakerState) (now : ℚ) (success : Bool) :
      BreakerReach cfg s → BreakerReach cfg (guardedCall cfg now success s).2

/-! ### `src/core/daily_loss_manager.py` -/

/-- Enum `DailyLossStatus`. -/
inductive DailyLossStatus where
  | normal
  | warning
  | reduced
  | blocked
deriving DecidableEq, Repr

/-- Constructor parameters of `DailyLossManager` that the loss logic uses. -/
structure DailyLossParams where
  max_daily_loss_usd : ℚ := 100
  max_daily_loss_percent : ℚ := 10
  total_capital : ℚ := 1000
  warning_threshold : ℚ := 7 / 10
  reduction_threshold : ℚ := 1 / 2
deriving DecidableEq, Repr

/-- Mutable state: the `DailyStats` fields the loss logic reads and
writes, plus the manager's `_status`. -/
structure DailyLossState where
  current_pnl : ℚ := 0
  unrealized_pnl : ℚ := 0
  trades_count : Nat := 0
  winning_trades : Nat := 0
  losing_trades : Nat := 0
  largest_win : ℚ := 0
  largest_loss : ℚ := 0
  status : DailyLossStatus := .normal
deriving DecidableEq, Repr

/-- Embeds `DailyLossManager._get_effective_limit` (lines 113-118). -/
def effectiveLimit (P : DailyLossParams) : ℚ :=
  min P.max_daily_loss_usd (P.max_daily_loss_percent / 100 * P.total_capital)

/-- Property `DailyStats.total_pnl`. -/
def totalPnl (st : DailyLossState) : ℚ :=
  st.current_pnl + st.unrealized_pnl

/-- Property `DailyLossManager.current_loss` (lines 129-131). -/
def currentLoss (st : DailyLossState) : ℚ :=
  if totalPnl st < 0 then -totalPnl st else 0

/-- Loss ratio as computed inside `_update_status` (line 280): zero when
the effective limit is not positive. -/
def lossRatio (P : DailyLossParams) (st : DailyLossState) : ℚ :=
  if effectiveLimit P > 0 then currentLoss st / effectiveLimit P else 0

/-- Embeds `DailyLossManager._update_status` (lines 278-289). -/
def updateStatus (P : DailyLossParams) (st : DailyLossState) :
    DailyLossState :=
  { st with status :=
      if lossRatio P st ≥ 1 then .blocked
      else if lossRatio P st ≥ P.warning_threshold then .warning
      else if lossRatio P st ≥ P.reduction_threshold then .reduced
      else .normal }

/-- Embeds `DailyLossManager.record_trade` (lines 216-270): accumulate the
pnl and the win/loss counters, then refresh the status. -/
def recordTrade (P : DailyLossParams) (pnl : ℚ) (st : DailyLossState) :
    DailyLossState :=
  let st1 := { st with current_pnl := st.current_pnl + pnl,
                       trades_count := st.trades_count + 1 }
  let st2 :=
    if pnl ≥ 0 then
      { st1 with winning_trades := st1.winning_trades + 1,
                 largest_win := if pnl > st1.largest_win then pnl
                                else st1.largest_win }
    else
      { st1 with losing_trades := st1.losing_trades + 1,
                 largest_loss := if |pnl| > |st1.largest_loss| then pnl
                                 else st1.largest_loss }
  updateStatus P st2

/-- Embeds `DailyLossManager.update_unrealized_pnl` (lines 272-276). -/
def updateUnrealizedPnl (P : DailyLossParams) (v : ℚ)
    (st : DailyLossState) : DailyLossState :=
  updateStatus P { st with unrealized_pnl := v }

/-- Embeds the property `DailyLossManager.can_trade` (lines 146-151):
false exactly when the status is blocked. -/
def canTrade (st : DailyLossState) : Bool :=
  st.status ≠ DailyLossStatus.blocked

/-- Embeds the property `DailyLossManager.position_size_multiplier`
(lines 153-171). -/
def positionSizeMultiplier (P : DailyLossParams) (st : DailyLossState) : ℚ :=
  match st.status with
  | .blocked => 0
  | .reduced => max (1 / 4) (1 - currentLoss st / effectiveLimit P)
  | .warning => 3 / 4
  | .normal => 1

/-- Manager states reachable from a freshly started manager (whose status
`start` aligns via `_update_status`) through `record_trade` and
`update_unrealized_pnl`. -/
inductive DLReach (P : DailyLossParams) : DailyLossState → Prop where
  | start : DLReach P (updateStatus P {})
  | trade (st : DailyLossState) (pnl : ℚ) :
      DLReach P st → DLReach P (recordTrade P pnl st)
  | unrealized (st : DailyLossState) (v : ℚ) :
      DLReach P st → DLReach P (updateUnrealizedPnl P v st)

/-! ### `src/core/local_orderbook.py` -/

/-- Dict assignment `m[price] = size` on a price ladder. -/
def insertKV (m : List (ℚ × ℚ)) (p s : ℚ) : List (ℚ × ℚ) :=
  match m with
  | [] => [(p, s)]
  | (q, v) :: t => if q = p then (q, s) :: t else (q, v) :: insertKV t p s

/-- Dict removal `m.pop(price, None)` on a price ladder. -/
def eraseKV (m : List (ℚ × ℚ)) (p : ℚ) : List (ℚ × ℚ) :=
  match m with
  | [] => []
  | (q, v) :: t => if q = p then t else (q, v) :: eraseKV t p

/-- Embeds `LocalOrderbook.best_bid`: the highest bid price, `None` on an
empty ladder. -/
def bestBid (m : List (ℚ × ℚ)) : Option ℚ :=
  match m with
  | [] => none
  | (p, _) :: t =>
    match bestBid t with
    | none => some p
    | some q => some (max p q)

/-- Embeds `LocalOrderbook.best_ask`: the lowest ask price. -/
def bestAsk (m : List (ℚ × ℚ)) : Option ℚ :=
  match m with
  | [] => none
  | (p, _) :: t =>
    match bestAsk t with
    | none => some p
    | some q => some (min p q)

/-- Embeds the `LocalOrderbook` state. -/
structure LocalOrderbook where
  token_id : String
  max_levels : Nat := 50
  bids : List (ℚ × ℚ) := []
  asks : List (ℚ × ℚ) := []
  last_update : ℚ := 0
  update_count : Nat := 0
  is_initialized : Bool := false
deriving DecidableEq, Repr

/-- Embeds `LocalOrderbook.apply_snapshot` (lines 144-169): clear both
ladders, then set each positive-size level among the first `max_levels`
entries of each input list, and stamp the update. -/
def applySnapshot (now : ℚ) (bids asks : List (ℚ × ℚ))
    (ob : LocalOrderbook) : LocalOrderbook :=
  let nb := (bids.take ob.max_levels).foldl
    (fun m pr => if pr.2 > 0 then insertKV m pr.1 pr.2 else m) []
  let na := (asks.take ob.max_levels).foldl
    (fun m pr => if pr.2 > 0 then insertKV m pr.1 pr.2 else m) []
  { ob with bids := nb, asks := na, last_update := now,
            update_count := ob.update_count + 1, is_initialized := true }

/-- Insertion into a list sorted by the strict comparator `lt`. -/
def insertSorted (lt : ℚ × ℚ → ℚ × ℚ → Bool) (x : ℚ × ℚ) :
    List (ℚ × ℚ) → List (ℚ × ℚ)
  | [] => [x]
  | y :: t => if lt x y then x :: y :: t else y :: insertSorted lt x t

/-- Insertion sort by the strict comparator `lt`. -/
def sortPairs (lt : ℚ × ℚ → ℚ × ℚ → Bool) : List (ℚ × ℚ) → List (ℚ × ℚ)
  | [] => []
  | x :: t => insertSorted lt x (sortPairs lt t)

/-- One side of `LocalOrderbook._trim_levels` (lines 205-220): while the
ladder exceeds `max_levels`, drop the worst level — equivalently, keep the
`max_levels` best levels in the side's price order. -/
def trimSide (lt : ℚ × ℚ → ℚ × ℚ → Bool) (maxLevels : Nat)
    (m : List (ℚ × ℚ)) : List (ℚ × ℚ) :=
  if m.length ≤ maxLevels then m else (sortPairs lt m).take maxLevels

/-- Embeds `LocalOrderbook.apply_delta` (lines 171-203): per-level update
(non-positive size deletes, positive size overwrites), then trim both
ladders and stamp the update. -/
def applyDelta (now : ℚ) (bids asks : Option (List (ℚ × ℚ)))
    (ob : LocalOrderbook) : LocalOrderbook :=
  let nb :=
    match bids with
    | some l => l.foldl
        (fun m pr => if pr.2 ≤ 0 then eraseKV m pr.1 else insertKV m pr.1 pr.2)
        ob.bids
    | none => ob.bids
  let na :=
    match asks with
    | some l => l.foldl
        (fun m pr => if pr.2 ≤ 0 then eraseKV m pr.1 else insertKV m pr.1 pr.2)
        ob.asks
    | none => ob.asks
  let nb1 := trimSide (fun a b => b.1 < a.1) ob.max_levels nb
  let na1 := trimSide (fun a b => a.1 < b.1) ob.max_levels na
  { ob with bids := nb1, asks := na1, last_update := now,
            update_count := ob.update_count + 1 }

/-! ## Helper lemmas -/

/-- `check_and_lock` only ever touches the `is_locked` flag: every numeric
field is preserved. -/
theorem check_and_lock_frame (m : ℚ) (q : GabagoolPosition) :
    (q.check_and_lock m).qty_yes = q.qty_yes ∧
    (q.check_and_lock m).cost_yes = q.cost_yes ∧
    (q.check_and_lock m).qty_no = q.qty_no ∧
    (q.check_and_lock m).cost_no = q.cost_no ∧
    (q.check_and_lock m).pending_qty_yes = q.pending_qty_yes ∧
    (q.check_and_lock m).pending_cost_yes = q.pending_cost_yes ∧
    (q.check_and_lock m).pending_qty_no = q.pending_qty_no ∧
    (q.check_and_lock m).pending_cost_no = q.pending_cost_no := by
  unfold GabagoolPosition.check_and_lock
  split <;> simp

/-- `check_and_lock` never clears the lock flag. -/
theorem check_and_lock_mono (m : ℚ) (q : GabagoolPosition)
    (h : q.is_locked = true) : (q.check_and_lock m).is_locked = true := by
  unfold GabagoolPosition.check_and_lock
  split <;> simp [h]

/-- Derived quantities of a position depend only on its numeric fields,
so `check_and_lock` preserves them. -/
theorem check_and_lock_pair_cost (m : ℚ) (q : GabagoolPosition) :
    (q.check_and_lock m).pair_cost = q.pair_cost ∧
    (q.check_and_lock m).hedged_qty = q.hedged_qty ∧
    (q.check_and_lock m).total_cost = q.total_cost := by
  unfold GabagoolPosition.check_and_lock
  split <;>
    simp [GabagoolPosition.pair_cost, GabagoolPosition.avg_price_yes,
      GabagoolPosition.avg_price_no, GabagoolPosition.hedged_qty,
      GabagoolPosition.total_cost]

/-- `fillArith` leaves the lock flag alone. -/
theorem fillArith_is_locked (side : Leg) (qty price now : ℚ)
    (p : GabagoolPosition) :
    (fillArith side qty price now p).is_locked = p.is_locked := by
  cases side <;> simp [fillArith]

/-! ## C1 — persist-then-reload of a position -/

/-- C1 (code bug): the claim asks that persisting a `GabagoolPosition`
with `to_dict` and reloading it with `from_dict` yields an equal position.
In the code `to_dict` adds the derived keys `total_qty_yes` and
`total_qty_no`, and `from_dict` passes the whole dict to the dataclass
constructor, which raises `TypeError` on those keys; `_load_positions`
catches the `TypeError` and resets the table to empty. So for every
position the round-trip loses the position instead of reproducing it. -/
theorem c1_persist_reload_loses_position (p : GabagoolPosition) :
    fromDict (toDict p) = Except.error "unexpected keyword argument" ∧
    loadPositions (savePositions [(p.market_id, p)]) = [] :=
  ⟨rfl, rfl⟩

/-! ## C2 — lock transition and lock-state invariant -/

/-- C2 (counterexample): the claim says every state reachable after
`locked = true` keeps `pair_cost < max_pair_cost` and
`hedged_qty ≥ total_cost`. Feeding a locked position one more fill at a
high price (a fill of an order submitted before the lock) breaks both:
after fills YES 1 @ 0.40, NO 1 @ 0.40 the position locks (pair_cost 0.80,
hedged 1 > cost 0.80), and a further fill YES 1 @ 0.99 leaves it locked
with pair_cost 1.095 ≥ 0.985 and total cost 1.79 > hedged 1. -/
theorem c2_lock_invariant_counterexample :
    (applyFillEvents (985 / 1000)
        [.fill .yes 1 (2 / 5) 0, .fill .no 1 (2 / 5) 0,
         .fill .yes 1 (99 / 100) 0]
        { market_id := "m", question := "q", token_yes_id := "ty",
          token_no_id := "tn" }).is_locked = true ∧
    ¬((applyFillEvents (985 / 1000)
        [.fill .yes 1 (2 / 5) 0, .fill .no 1 (2 / 5) 0,
         .fill .yes 1 (99 / 100) 0]
        { market_id := "m", question := "q", token_yes_id := "ty",
          token_no_id := "tn" }).pair_cost < 985 / 1000) ∧
    ¬((applyFillEvents (985 / 1000)
        [.fill .yes 1 (2 / 5) 0, .fill .no 1 (2 / 5) 0,
         .fill .yes 1 (99 / 100) 0]
        { market_id := "m", question := "q", token_yes_id := "ty",
          token_no_id := "tn" }).hedged_qty ≥
      (applyFillEvents (985 / 1000)
        [.fill .yes 1 (2 / 5) 0, .fill .no 1 (2 / 5) 0,
         .fill .yes 1 (99 / 100) 0]
        { market_id := "m", question := "q", token_yes_id := "ty",
          token_no_id := "tn" }).total_cost) := by
  norm_num [applyFillEvents, fillStep, fillUpdate, fillArith,
    GabagoolPosition.check_and_lock, GabagoolPosition.pair_cost,
    GabagoolPosition.avg_price_yes, GabagoolPosition.avg_price_no,
    GabagoolPosition.hedged_qty, GabagoolPosition.total_cost]

/-- C2 (amended): after a fill-manager update, if the updated numbers give
`pair_cost < max_pair_cost` and `hedged_qty > total_cost` then the
position locks; `locked` is never cleared by any update; and at the very
update that first sets `locked`, `pair_cost < max_pair_cost` and
`hedged_qty ≥ total_cost` hold. (Later fills of pre-lock orders may break
these inequalities again, which is what the counterexample exhibits.) -/
theorem c2_lock_amended (maxPairCost : ℚ) (e : FillEvent)
    (p : GabagoolPosition) :
    (p.is_locked = true → (fillStep maxPairCost e p).is_locked = true) ∧
    (∀ side qty price now,
      (fillArith side qty price now p).pair_cost < maxPairCost →
      (fillArith side qty price now p).hedged_qty >
        (fillArith side qty price now p).total_cost →
      (fillUpdate maxPairCost side qty price now p).is_locked = true) ∧
    (p.is_locked = false → (fillStep maxPairCost e p).is_locked = true →
      (fillStep maxPairCost e p).pair_cost < maxPairCost ∧
      (fillStep maxPairCost e p).hedged_qty ≥
        (fillStep maxPairCost e p).total_cost) := by
  refine ⟨?_, ?_, ?_⟩
  · intro h
    cases e with
    | fill side qty price now =>
        exact check_and_lock_mono _ _ ((fillArith_is_locked ..).trans h)
    | orderEnd side rem => cases side <;> simpa [fillStep, orderEndUpdate]
  · intro side qty price now h1 h2
    unfold fillUpdate GabagoolPosition.check_and_lock
    rw [if_pos ⟨h1, h2⟩]
  · intro hfalse hlock
    cases e with
    | fill side qty price now =>
        have hcl := check_and_lock_pair_cost maxPairCost
          (fillArith side qty price now p)
        by_cases hc : (fillArith side qty price now p).pair_cost < maxPairCost ∧
            (fillArith side qty price now p).hedged_qty >
              (fillArith side qty price now p).total_cost
        · refine ⟨?_, ?_⟩
          · rw [show fillStep maxPairCost (.fill side qty price now) p =
                GabagoolPosition.check_and_lock maxPairCost
                  (fillArith side qty price now p) from rfl, hcl.1]
            exact hc.1
          · rw [show fillStep maxPairCost (.fill side qty price now) p =
                GabagoolPosition.check_and_lock maxPairCost
                  (fillArith side qty price now p) from rfl, hcl.2.1, hcl.2.2]
            exact le_of_lt hc.2
        · exfalso
          have : (fillStep maxPairCost (.fill side qty price now) p).is_locked
              = p.is_locked := by
            show (GabagoolPosition.check_and_lock maxPairCost
              (fillArith side qty price now p)).is_locked = p.is_locked
            unfold GabagoolPosition.check_and_lock
            rw [if_neg hc]
            exact fillArith_is_locked ..
          rw [hlock] at this
          exact absurd this.symm (by simp [hfalse])
    | orderEnd side rem =>
        exfalso
        have : (fillStep maxPairCost (.orderEnd side rem) p).is_locked
            = p.is_locked := by
          cases side <;> simp [fillStep, orderEndUpdate]
        rw [hlock] at this
        exact absurd this.symm (by simp [hfalse])

/-- C2 witness: the amended theorem applied at concrete inputs — a
position holding YES 1 @ 0.40 locks on the fill NO 1 @ 0.40, and an
already locked position stays locked through an order-end update. -/
theorem c2_lock_amended_witness :
    (fillUpdate (985 / 1000) .no 1 (2 / 5) 0
      { market_id := "m", question := "q", token_yes_id := "ty",
        token_no_id := "tn", qty_yes := 1,
        cost_yes := 2 / 5 }).is_locked = true ∧
    (fillStep (985 / 1000) (.orderEnd .yes 1)
      { market_id := "m", question := "q", token_yes_id := "ty",
        token_no_id := "tn", is_locked := true }).is_locked = true := by
  refine ⟨?_, ?_⟩
  · exact (c2_lock_amended (985 / 1000) (.orderEnd .yes 1)
      { market_id := "m", question := "q", token_yes_id := "ty",
        token_no_id := "tn", qty_yes := 1, cost_yes := 2 / 5 }).2.1
      .no 1 (2 / 5) 0
      (by norm_num [fillArith, GabagoolPosition.pair_cost,
        GabagoolPosition.avg_price_yes, GabagoolPosition.avg_price_no])
      (by norm_num [fillArith, GabagoolPosition.hedged_qty,
        GabagoolPosition.total_cost])
  · exact (c2_lock_amended (985 / 1000) (.orderEnd .yes 1)
      { market_id := "m", question := "q", token_yes_id := "ty",
        token_no_id := "tn", is_locked := true }).1 rfl

/-! ## C10 — pending-cost frame conditions of the engine callbacks -/

/-- C10: the fill callback and the order-end callback never change
`pending_cost_yes` / `pending_cost_no`; a fill only decrements the filled
leg's pending quantity (clamped at 0) and increases its real quantity and
cost; an order-end only decrements the leg's pending quantity (clamped at
0); and `place_order` is the operation that increases the pending cost of
the ordered leg (leaving the other leg's untouched). -/
theorem c10_pending_cost_frame (maxPairCost : ℚ) (side : Leg)
    (qty price rem now : ℚ) (p : GabagoolPosition) :
    (fillUpdate maxPairCost side qty price now p).pending_cost_yes
        = p.pending_cost_yes ∧
    (fillUpdate maxPairCost side qty price now p).pending_cost_no
        = p.pending_cost_no ∧
    (orderEndUpdate side rem p).pending_cost_yes = p.pending_cost_yes ∧
    (orderEndUpdate side rem p).pending_cost_no = p.pending_cost_no ∧
    (fillUpdate maxPairCost .yes qty price now p).pending_qty_yes
        = max 0 (p.pending_qty_yes - qty) ∧
    (fillUpdate maxPairCost .yes qty price now p).pending_qty_no
        = p.pending_qty_no ∧
    (fillUpdate maxPairCost .yes qty price now p).qty_yes = p.qty_yes + qty ∧
    (fillUpdate maxPairCost .yes qty price now p).cost_yes
        = p.cost_yes + qty * price ∧
    (fillUpdate maxPairCost .no qty price now p).pending_qty_no
        = max 0 (p.pending_qty_no - qty) ∧
    (fillUpdate maxPairCost .no qty price now p).pending_qty_yes
        = p.pending_qty_yes ∧
    (fillUpdate maxPairCost .no qty price now p).qty_no = p.qty_no + qty ∧
    (fillUpdate maxPairCost .no qty price now p).cost_no
        = p.cost_no + qty * price ∧
    (orderEndUpdate .yes rem p).pending_qty_yes
        = max 0 (p.pending_qty_yes - rem) ∧
    (orderEndUpdate .no rem p).pending_qty_no
        = max 0 (p.pending_qty_no - rem) ∧
    (placeOrderPending .yes price qty now p).pending_cost_yes
        = p.pending_cost_yes + qty * price ∧
    (placeOrderPending .yes price qty now p).pending_cost_no
        = p.pending_cost_no ∧
    (placeOrderPending .no price qty now p).pending_cost_no
        = p.pending_cost_no + qty * price ∧
    (placeOrderPending .no price qty now p).pending_cost_yes
        = p.pending_cost_yes := by
  refine ⟨?_, ?_, ?_, ?_, ?_, ?_, ?_, ?_, ?_, ?_, ?_, ?_, ?_, ?_, ?_, ?_,
    ?_, ?_⟩ <;>
    cases side <;>
      simp [fillUpdate, fillArith, orderEndUpdate, placeOrderPending,
        GabagoolPosition.check_and_lock] <;> split <;> simp

/-! ## C3 — retry path of the order queue -/

/-- Order of the C3 scenario: a plain limit BUY enqueued once. -/
def c3Order : QueuedOrder :=
  { token_id := "t", side := "BUY", price := 1 / 2, size := 100, id := "a" }

/-- C3 scenario run: enqueue the order, let the processor pop it and mark
it processing, then fail its submission once (`retries = 0 < max_retries`). -/
def c3Run : OrderQueueState × ℚ × List QueueEvent :=
  handleFailure
    (setOrderStatus (getNextOrder (enqueue {} c3Order).2).2 "a" .processing)
    "a" "boom"

/-- C3 (code bug): on a failure with `retries < max_retries` the code does
increment `retries`, reset the status to `pending`, fire the retry
callback and sleep `retry_delay × retries` — but the final
`enqueue(order)` hits the dedup ring (the order's own key is still among
the recent keys), returns without pushing the id on any FIFO, and the
order is never submitted again: all three priority queues are empty after
the retry. -/
theorem c3_retry_never_requeued :
    lookupKey c3Run.1.orders "a" =
      some { c3Order with
              status := QueueOrderStatus.pending, retries := 1,
              error := some "boom" } ∧
    c3Run.1.urgent_queue = [] ∧
    c3Run.1.high_queue = [] ∧
    c3Run.1.normal_queue = [] ∧
    c3Run.2.1 = 1 / 20 ∧
    c3Run.2.2 = [.retried "a" 1] ∧
    c3Run.1.stats.total_retried = 1 := by
  norm_num [c3Run, c3Order, handleFailure, setOrderStatus, getNextOrder,
    enqueue, pushRecent, makeOrderKey, lookupKey, setKey]

/-! ## C4 — dedup window return value -/

/-- First order of the C4 scenario. -/
def c4OrderA : QueuedOrder :=
  { token_id := "t", side := "BUY", price := 1 / 2, size := 100, id := "a" }

/-- Second order of the C4 scenario: identical dedup key
`(token, side, price, size)`, fresh uuid id. -/
def c4OrderB : QueuedOrder :=
  { token_id := "t", side := "BUY", price := 1 / 2, size := 100, id := "b" }

/-- C4 (code bug): enqueueing a duplicate within the dedup window adds no
entry (the table grows by exactly 1 across the two calls), but the second
call returns `order.id` of the *second* order — a fresh id that is not in
the order table — instead of the id of the first (original) order, which
both the claim and the method's docstring ("ID existant si doublon")
promise. -/
theorem c4_dedup_returns_wrong_id :
    (enqueue {} c4OrderA).1 = "a" ∧
    (enqueue (enqueue {} c4OrderA).2 c4OrderB).1 = "b" ∧
    ("b" : String) ≠ "a" ∧
    (enqueue (enqueue {} c4OrderA).2 c4OrderB).2 = (enqueue {} c4OrderA).2 ∧
    lookupKey (enqueue (enqueue {} c4OrderA).2 c4OrderB).2.orders "b"
      = none ∧
    (enqueue (enqueue {} c4OrderA).2 c4OrderB).2.orders.length = 1 := by
  norm_num [c4OrderA, c4OrderB, enqueue, pushRecent, makeOrderKey,
    lookupKey, setKey]
  decide

/-! ## C5 — bilateral execution with one failing leg -/

/-- C5 (code bug): when the YES leg succeeds and the NO leg fails, the
executor does cancel exactly the surviving YES order, returns
`success = false`, `is_partial = true` with the NO error as message, and
logs critically when that cancel fails — but in the symmetric case (YES
fails, NO succeeds) the exception is re-raised before `order_no_id` is
ever assigned, so the cancel branch for the surviving NO order is
unreachable: no cancel is issued at all and the result reports
`is_partial = false` with both ids `None`. -/
theorem c5_partial_bilateral :
    placeBilateralOrders "opp" (.ok (some "y1")) (.error "NO leg failed")
        true =
      ({ opportunity_id := "opp", success := false,
         order_yes_id := some "y1", error_message := some "NO leg failed" },
        ["y1"], []) ∧
    (placeBilateralOrders "opp" (.ok (some "y1")) (.error "NO leg failed")
        true).1.partialFill = true ∧
    (placeBilateralOrders "opp" (.ok (some "y1")) (.error "NO leg failed")
        false).2.2 =
      ["CRITIQUE: annulation de l ordre YES echouee, position non couverte"] ∧
    placeBilateralOrders "opp" (.error "YES leg failed") (.ok (some "n1"))
        true =
      ({ opportunity_id := "opp", success := false,
         error_message := some "YES leg failed" }, [], []) ∧
    (placeBilateralOrders "opp" (.error "YES leg failed") (.ok (some "n1"))
        true).1.partialFill = false :=
  ⟨rfl, rfl, rfl, rfl, rfl⟩

/-! ## C6 — kill switch -/

/-- Position of the C6 scenario: one-legged, unlocked, created at `t = 0`. -/
def c6Position : GabagoolPosition :=
  { market_id := "m", question := "q", token_yes_id := "ty",
    token_no_id := "tn", qty_yes := 50, cost_yes := 24, created_at := 0 }

/-- C6 (code bug): at age 21 minutes > `kill_switch_minutes = 20` on an
unlocked position, the kill-switch branch fires: the snapshot returns the
no-op decision and the position is removed from the active set — but the
liquidation submits no market sell order at all (the sell in
`_liquidate_position` exists only as a comment), contradicting both the
claim and the method's docstring ("Vend tout au prix du marché"). The
empty middle component is the list of orders submitted. -/
theorem c6_kill_switch_sells_nothing :
    analyzeKillSwitch {} [("m", c6Position)] "m" (21 * 60) =
      some ([], [], none, 0) := by
  norm_num [analyzeKillSwitch, liquidatePosition, lookupKey, eraseKey,
    c6Position]

/-! ## C7 — daily loss manager -/

/-- Refreshing the status twice in a row gives the same status: the
status written by `_update_status` depends only on the numeric fields,
which `_update_status` does not change. -/
theorem updateStatus_status_stable (P : DailyLossParams)
    (st : DailyLossState) :
    (updateStatus P st).status = (updateStatus P (updateStatus P st)).status :=
  rfl

/-- In every reachable manager state the stored status agrees with what
`_update_status` would recompute from the current numbers (both
`record_trade` and `update_unrealized_pnl` end by refreshing it). -/
theorem dlreach_status_eq (P : DailyLossParams) {st : DailyLossState}
    (h : DLReach P st) : st.status = (updateStatus P st).status := by
  induction h with
  | start => exact updateStatus_status_stable P {}
  | trade st pnl _ _ => exact updateStatus_status_stable P _
  | unrealized st v _ _ => exact updateStatus_status_stable P _

/-- C7: in every state reachable through `record_trade` and
`update_unrealized_pnl` (with a positive effective limit), `can_trade` is
false exactly when the current loss has reached
`min(max_daily_loss_usd, max_daily_loss_percent/100 × capital)`, and the
position-size multiplier is zero exactly when the status is blocked
(being 1 in normal, 0.75 in warning and `max(0.25, 1 − loss_ratio)` in
reduced). -/
theorem c7_daily_loss_gate (P : DailyLossParams) (st : DailyLossState)
    (hreach : DLReach P st) (hpos : 0 < effectiveLimit P) :
    (canTrade st = false ↔ currentLoss st ≥ effectiveLimit P) ∧
    (positionSizeMultiplier P st = 0 ↔ st.status = .blocked) ∧
    (st.status = .normal → positionSizeMultiplier P st = 1) ∧
    (st.status = .warning → positionSizeMultiplier P st = 3 / 4) ∧
    (st.status = .reduced →
      positionSizeMultiplier P st =
        max (1 / 4) (1 - currentLoss st / effectiveLimit P)) := by
  have hstat := dlreach_status_eq P hreach
  have hratio : lossRatio P st = currentLoss st / effectiveLimit P := by
    simp [lossRatio, hpos]
  have hblocked : st.status = DailyLossStatus.blocked ↔
      currentLoss st ≥ effectiveLimit P := by
    rw [hstat]
    unfold updateStatus
    constructor
    · intro hb
      by_cases hc : lossRatio P st ≥ 1
      · rw [hratio] at hc
        calc effectiveLimit P = 1 * effectiveLimit P := (one_mul _).symm
          _ ≤ currentLoss st := (le_div_iff₀ hpos).mp hc
      · exfalso
        simp only [if_neg hc] at hb
        split at hb
        · exact DailyLossStatus.noConfusion hb
        · split at hb <;> exact DailyLossStatus.noConfusion hb
    · intro hge
      have hc : lossRatio P st ≥ 1 := by
        rw [hratio, ge_iff_le, le_div_iff₀ hpos, one_mul]
        exact hge
      simp [if_pos hc]
  refine ⟨?_, ?_, ?_, ?_, ?_⟩
  · rw [show (canTrade st = false ↔ st.status = DailyLossStatus.blocked)
      from by simp [canTrade]]
    exact hblocked
  · constructor
    · intro hz
      cases hs : st.status with
      | blocked => rfl
      | normal => rw [positionSizeMultiplier, hs] at hz; norm_num at hz
      | warning => rw [positionSizeMultiplier, hs] at hz; norm_num at hz
      | reduced =>
          rw [positionSizeMultiplier, hs] at hz
          have h4 : (1 / 4 : ℚ) ≤ 0 := hz ▸ le_max_left _ _
          norm_num at h4
    · intro hb
      rw [positionSizeMultiplier, hb]
  · intro hs; rw [positionSizeMultiplier, hs]
  · intro hs; rw [positionSizeMultiplier, hs]
  · intro hs; rw [positionSizeMultiplier, hs]

/-- C7 witness: with default parameters (effective limit $100), recording
a single −$100 trade from a fresh manager blocks trading and zeroes the
position-size multiplier. -/
theorem c7_daily_loss_gate_witness :
    canTrade (recordTrade {} (-100) (updateStatus {} {})) = false ∧
    positionSizeMultiplier {} (recordTrade {} (-100) (updateStatus {} {}))
      = 0 := by
  have h := c7_daily_loss_gate {} (recordTrade {} (-100) (updateStatus {} {}))
    (DLReach.trade _ (-100) DLReach.start)
    (by norm_num [effectiveLimit])
  refine ⟨h.1.mpr ?_, h.2.1.mpr ?_⟩
  · norm_num [recordTrade, updateStatus, currentLoss, totalPnl,
      effectiveLimit, lossRatio]
  · norm_num [recordTrade, updateStatus, currentLoss, totalPnl,
      effectiveLimit, lossRatio]

/-! ## C8 — circuit breaker -/

/-- `_check_state` never changes the stored last-failure time. -/
theorem checkState_last_failure (cfg : CircuitBreakerConfig) (now : ℚ)
    (s : BreakerState) :
    (checkState cfg now s).2.last_failure_time = s.last_failure_time := by
  obtain ⟨st, fc, sc, lft, hoc⟩ := s
  cases st <;> cases lft <;> simp [checkState] <;> split <;> simp

/-- If `_check_state` leaves the breaker open, it was already open. -/
theorem checkState_opened (cfg : CircuitBreakerConfig) (now : ℚ)
    (s : BreakerState)
    (h : (checkState cfg now s).2.state = .opened) : s.state = .opened := by
  obtain ⟨st, fc, sc, lft, hoc⟩ := s
  cases st <;> cases lft <;> simp [checkState] at h ⊢ <;>
    split at h <;> simp_all

/-- `_record_success` never changes the last-failure time and never moves
the breaker into the open state. -/
theorem recordSuccess_frame (cfg : CircuitBreakerConfig) (s : BreakerState) :
    (recordSuccess cfg s).last_failure_time = s.last_failure_time ∧
    ((recordSuccess cfg s).state = .opened → s.state = .opened) := by
  obtain ⟨st, fc, sc, lft, hoc⟩ := s
  cases st <;> simp [recordSuccess]
  split <;> simp

/-- `_record_failure` always stamps the failure time. -/
theorem recordFailure_time (cfg : CircuitBreakerConfig) (now : ℚ)
    (s : BreakerState) :
    (recordFailure cfg now s).last_failure_time = some now := by
  obtain ⟨st, fc, sc, lft, hoc⟩ := s
  cases st <;> simp [recordFailure]
  split <;> simp

/-- In every reachable breaker state, an open breaker carries a
last-failure timestamp (the only transitions into open happen inside
`_record_failure`, right after the timestamp is written). -/
theorem breaker_opened_has_time (cfg : CircuitBreakerConfig)
    {s : BreakerState} (h : BreakerReach cfg s) :
    s.state = .opened → s.last_failure_time ≠ none := by
  induction h with
  | start => intro h1; exact absurd h1 (by simp)
  | step s now success _ ih =>
      intro hst
      rcases hc : checkState cfg now s with ⟨adm, s1⟩
      have hlf : s1.last_failure_time = s.last_failure_time := by
        have h1 := checkState_last_failure cfg now s
        rw [hc] at h1
        exact h1
      have hop : s1.state = .opened → s.state = .opened := by
        intro h2
        refine checkState_opened cfg now s ?_
        rw [hc]
        exact h2
      simp only [guardedCall, hc] at hst ⊢
      cases adm with
      | false =>
          simp at hst ⊢
          rw [hlf]
          exact ih (hop hst)
      | true =>
          cases success with
          | true =>
              simp at hst ⊢
              rw [(recordSuccess_frame cfg s1).1, hlf]
              exact ih (hop ((recordSuccess_frame cfg s1).2 hst))
          | false =>
              simp [recordFailure_time]

/-- C8: for every reachable open breaker state, a last-failure timestamp
exists; while less than `timeout_seconds` have elapsed since it, every
call is rejected with the circuit-open error and the underlying remote
function is not invoked (the state is left untouched); and once
`timeout_seconds` have elapsed, the next call is admitted — it executes
the remote function and runs with the state moved to `half_open`. -/
theorem c8_circuit_open_gate (cfg : CircuitBreakerConfig) (s : BreakerState)
    (hreach : BreakerReach cfg s) (hopen : s.state = .opened) :
    (∃ t, s.last_failure_time = some t) ∧
    (∀ now success t, s.last_failure_time = some t →
      now - t < cfg.timeout_seconds →
      guardedCall cfg now success s = (.rejected, s)) ∧
    (∀ now success t, s.last_failure_time = some t →
      now - t ≥ cfg.timeout_seconds →
      (guardedCall cfg now success s).1 = .executed success ∧
      (checkState cfg now s).1 = true ∧
      (checkState cfg now s).2.state = .half_open) := by
  refine ⟨?_, ?_, ?_⟩
  · cases ht : s.last_failure_time with
    | none => exact absurd ht (breaker_opened_has_time cfg hreach hopen)
    | some t => exact ⟨t, rfl⟩
  · intro now success t ht hlt
    have hcheck : checkState cfg now s = (false, s) := by
      simp only [checkState, hopen, ht]
      rw [if_neg (not_le.mpr hlt)]
    simp only [guardedCall, hcheck]
    simp
  · intro now success t ht hge
    have hcheck : checkState cfg now s =
        (true, { s with state := .half_open, half_open_calls := 0 }) := by
      simp only [checkState, hopen, ht]
      rw [if_pos hge]
    simp only [guardedCall, hcheck]
    cases success <;> simp

/-- Breaker configuration of the C8 witness: one failure trips the
breaker, one-second timeout. -/
def c8Config : CircuitBreakerConfig :=
  { failure_threshold := 1, timeout_seconds := 1 }

/-- Open breaker state of the C8 witness: a fresh breaker after one failed
guarded call at time 0. -/
def c8OpenState : BreakerState :=
  (guardedCall c8Config 0 false {}).2

/-- C8 witness: the gate theorem applied to the concrete open state —
a call at `t = 1/2` is rejected without reaching the remote function, and
a call at `t = 2` is admitted and finds the breaker half-open. -/
theorem c8_circuit_open_gate_witness :
    guardedCall c8Config (1 / 2) true c8OpenState = (.rejected, c8OpenState) ∧
    (checkState c8Config 2 c8OpenState).2.state = .half_open := by
  have h := c8_circuit_open_gate c8Config c8OpenState
    (BreakerReach.step {} 0 false BreakerReach.start)
    (by norm_num [c8OpenState, c8Config, guardedCall, checkState,
      recordFailure])
  refine ⟨h.2.1 (1 / 2) true 0 ?_ (by norm_num [c8Config]),
    (h.2.2 2 true 0 ?_ (by norm_num [c8Config])).2.2⟩ <;>
    norm_num [c8OpenState, c8Config, guardedCall, checkState, recordFailure]

/-! ## C9 — local order book -/

/-- The best bid is one of the ladder's price keys. -/
theorem bestBid_mem {m : List (ℚ × ℚ)} {b : ℚ} (h : bestBid m = some b) :
    b ∈ m.map Prod.fst := by
  induction m with
  | nil => simp [bestBid] at h
  | cons x t ih =>
      obtain ⟨p, sz⟩ := x
      cases hbt : bestBid t with
      | none =>
          simp [bestBid, hbt] at h
          simp [h]
      | some q =>
          simp [bestBid, hbt] at h
          rcases max_choice p q with hm | hm <;> rw [hm] at h
          · simp [h]
          · exact List.mem_cons_of_mem _ (ih (by rw [hbt, h]))

/-- The best ask is one of the ladder's price keys. -/
theorem bestAsk_mem {m : List (ℚ × ℚ)} {a : ℚ} (h : bestAsk m = some a) :
    a ∈ m.map Prod.fst := by
  induction m with
  | nil => simp [bestAsk] at h
  | cons x t ih =>
      obtain ⟨p, sz⟩ := x
      cases hat : bestAsk t with
      | none =>
          simp [bestAsk, hat] at h
          simp [h]
      | some q =>
          simp [bestAsk, hat] at h
          rcases min_choice p q with hm | hm <;> rw [hm] at h
          · simp [h]
          · exact List.mem_cons_of_mem _ (ih (by rw [hat, h]))

/-- A key of `insertKV m p s` is `p` or a key of `m`. -/
theorem mem_keys_insertKV {m : List (ℚ × ℚ)} {p s b : ℚ}
    (h : b ∈ (insertKV m p s).map Prod.fst) :
    b = p ∨ b ∈ m.map Prod.fst := by
  induction m with
  | nil =>
      simp [insertKV] at h
      exact Or.inl h
  | cons x t ih =>
      obtain ⟨q, v⟩ := x
      by_cases hq : q = p
      · rw [insertKV, if_pos hq] at h
        simp at h
        rcases h with h | h
        · exact Or.inr (by simp [h])
        · exact Or.inr (by simp [h])
      · rw [insertKV, if_neg hq] at h
        simp at h
        rcases h with h | h
        · exact Or.inr (by simp [h])
        · rcases ih (by simpa using h) with h1 | h1
          · exact Or.inl h1
          · exact Or.inr (List.mem_cons_of_mem _ h1)

/-- Every key of the ladder built by `apply_snapshot`'s loop comes from
the accumulator or from the input levels. -/
theorem keys_snapshot_fold {l acc : List (ℚ × ℚ)} {b : ℚ}
    (h : b ∈ ((l.foldl
      (fun m pr => if pr.2 > 0 then insertKV m pr.1 pr.2 else m)
      acc).map Prod.fst)) :
    b ∈ acc.map Prod.fst ∨ b ∈ l.map Prod.fst := by
  induction l generalizing acc with
  | nil =>
      simp at h
      exact Or.inl (by simpa using h)
  | cons x t ih =>
      simp only [List.foldl_cons] at h
      rcases ih h with h1 | h1
      · by_cases hx : x.2 > 0
        · rw [if_pos hx] at h1
          rcases mem_keys_insertKV h1 with h2 | h2
          · exact Or.inr (by simp [h2])
          · exact Or.inl h2
        · rw [if_neg hx] at h1
          exact Or.inl h1
      · exact Or.inr (List.mem_cons_of_mem _ h1)

/-- `_trim_levels` bounds a ladder by `max_levels`. -/
theorem trimSide_length_le (lt : ℚ × ℚ → ℚ × ℚ → Bool) (maxL : Nat)
    (m : List (ℚ × ℚ)) : (trimSide lt maxL m).length ≤ maxL := by
  unfold trimSide
  split
  · assumption
  · simp [List.length_take]

/-- C9 (counterexample): `apply_snapshot` copies the feed without
validating it, so a crossed snapshot — here a bid at 0.60 against an ask
at 0.50 — yields a book whose sides are both non-empty with
`best_bid = 0.60 > best_ask = 0.50`, violating the claimed invariant. -/
theorem c9_crossed_snapshot_counterexample :
    (applySnapshot 0 [(3 / 5, 10)] [(1 / 2, 10)]
      { token_id := "t" }).bids ≠ [] ∧
    (applySnapshot 0 [(3 / 5, 10)] [(1 / 2, 10)]
      { token_id := "t" }).asks ≠ [] ∧
    bestBid (applySnapshot 0 [(3 / 5, 10)] [(1 / 2, 10)]
      { token_id := "t" }).bids = some (3 / 5) ∧
    bestAsk (applySnapshot 0 [(3 / 5, 10)] [(1 / 2, 10)]
      { token_id := "t" }).asks = some (1 / 2) ∧
    ¬((3 : ℚ) / 5 < 1 / 2) := by
  have htake : ∀ x : ℚ × ℚ, List.take 50 [x] = [x] := fun x =>
    List.take_of_length_le (by norm_num)
  norm_num [applySnapshot, htake, insertKV, bestBid, bestAsk]

/-- C9 (amended): after `apply_snapshot` of an *uncrossed* snapshot (every
bid price of the input below every ask price), if both sides of the book
are non-empty then `best_bid < best_ask`; and every `apply_delta` call
leaves at most `max_levels` levels per side (so any sequence of deltas
does). The crossing guarantee needs the input hypothesis, which the
counterexample shows cannot be dropped: the code never checks it. -/
theorem c9_book_amended (ob : LocalOrderbook) (now : ℚ)
    (bids asks : List (ℚ × ℚ)) :
    ((∀ pb ∈ bids.map Prod.fst, ∀ pa ∈ asks.map Prod.fst, pb < pa) →
      ∀ b a, bestBid (applySnapshot now bids asks ob).bids = some b →
        bestAsk (applySnapshot now bids asks ob).asks = some a → b < a) ∧
    (∀ dbids dasks,
      (applyDelta now dbids dasks ob).bids.length ≤ ob.max_levels ∧
      (applyDelta now dbids dasks ob).asks.length ≤ ob.max_levels) := by
  constructor
  · intro hcross b a hb ha
    have hbk : b ∈ ([] : List (ℚ × ℚ)).map Prod.fst ∨
        b ∈ (bids.take ob.max_levels).map Prod.fst :=
      keys_snapshot_fold (bestBid_mem hb)
    have hak : a ∈ ([] : List (ℚ × ℚ)).map Prod.fst ∨
        a ∈ (asks.take ob.max_levels).map Prod.fst :=
      keys_snapshot_fold (bestAsk_mem ha)
    rcases hbk with hbk | hbk
    · simp at hbk
    rcases hak with hak | hak
    · simp at hak
    exact hcross b (List.map_subset _ (List.take_subset _ _) hbk)
      a (List.map_subset _ (List.take_subset _ _) hak)
  · intro dbids dasks
    exact ⟨trimSide_length_le _ _ _, trimSide_length_le _ _ _⟩

/-- C9 witness: the amended theorem applied to a concrete uncrossed
snapshot (bid 0.40, ask 0.60) and to a concrete delta call. -/
theorem c9_book_amended_witness :
    ((2 : ℚ) / 5 < 3 / 5) ∧
    (applyDelta 0 (some [(1 / 2, 5)]) none
      { token_id := "t" }).bids.length ≤ 50 := by
  have htake : ∀ x : ℚ × ℚ, List.take 50 [x] = [x] := fun x =>
    List.take_of_length_le (by norm_num)
  refine ⟨(c9_book_amended { token_id := "t" } 0 [(2 / 5, 10)]
      [(3 / 5, 10)]).1 ?_ (2 / 5) (3 / 5) ?_ ?_, ?_⟩
  · intro pb hpb pa hpa
    simp at hpb hpa
    rw [hpb, hpa]
    norm_num
  · norm_num [applySnapshot, htake, insertKV, bestBid]
  · norm_num [applySnapshot, htake, insertKV, bestAsk]
  · exact ((c9_book_amended { token_id := "t" } 0 [] []).2
      (some [(1 / 2, 5)]) none).1

end Apex
